import Mathlib

/-!
Verification of the animeforge pose-interpolation / sprite-sheet pipeline
and its generation-backend layer.

Shallow embedding conventions:

* Python floats are modelled as exact rationals (`ℚ`); Python `int(x)` on a
  non-negative value is `⌊x⌋.toNat`.
* Python exceptions are modelled with `Except`: a `ValueError`, `IndexError`
  or `RuntimeError` raised by the code becomes an `Except.error` value
  carrying the error kind and, where a claim depends on it, the message text.
* Raster images are modelled as a pair of dimensions plus a total pixel
  function; the filesystem seen by the assembler is a total map from path
  strings to file states (missing, unreadable, or a decoded image).
* Every definition is translated from the corresponding function in
  `src/animeforge`, keeping the source's names where Lean's lexer allows it.
-/

namespace AnimeForge

/-! ## Pose data model (`animeforge/models/pose.py`)

A keypoint in the source is a Python list `[x, y, confidence]`; the
interpolation helpers read exactly indices 0, 1 and 2, so a point is
embedded as a triple of rationals. -/

/-- One OpenPose keypoint `[x, y, confidence]` (`models/pose.py`). -/
structure Point where
  x : ℚ
  y : ℚ
  c : ℚ
deriving DecidableEq, Repr

/-- The 14 named OpenPose keypoints of `PoseKeypoints` (`models/pose.py`). -/
structure PoseKeypoints where
  nose : Point
  neck : Point
  right_shoulder : Point
  left_shoulder : Point
  right_elbow : Point
  left_elbow : Point
  right_wrist : Point
  left_wrist : Point
  right_hip : Point
  left_hip : Point
  right_knee : Point
  left_knee : Point
  right_ankle : Point
  left_ankle : Point
deriving DecidableEq, Repr

/-- A `PoseFrame`: keypoints plus a display duration (`models/pose.py`). -/
structure PoseFrame where
  keypoints : PoseKeypoints
  duration_ms : ℤ := 83
deriving DecidableEq, Repr

/-- A `PoseSequence`: name, ordered frames, loop flag (`models/pose.py`). -/
structure PoseSequence where
  name : String
  frames : List PoseFrame
  loop : Bool := true
deriving DecidableEq, Repr

/-! ## Pose interpolation (`animeforge/pipeline/poses.py`) -/

/-- Python error kinds raised by `interpolate_poses`. -/
inductive PyError where
  | valueError (msg : String)
  | indexError
deriving DecidableEq, Repr

/-- Source `_lerp(a, b, t) = a + (b - a) * t` (`pipeline/poses.py`). -/
def lerp (a b t : ℚ) : ℚ := a + (b - a) * t

/-- Source `_lerp_point`: interpolate the three components of an
`[x, y, confidence]` point (`pipeline/poses.py`). -/
def lerpPoint (a b : Point) (t : ℚ) : Point :=
  ⟨lerp a.x b.x t, lerp a.y b.y t, lerp a.c b.c t⟩

/-- Source `_lerp_keypoints`: interpolate every named joint field
(`pipeline/poses.py`; the Python iterates `PoseKeypoints.model_fields`,
which is exactly the 14 joints). -/
def lerpKeypoints (ka kb : PoseKeypoints) (t : ℚ) : PoseKeypoints where
  nose := lerpPoint ka.nose kb.nose t
  neck := lerpPoint ka.neck kb.neck t
  right_shoulder := lerpPoint ka.right_shoulder kb.right_shoulder t
  left_shoulder := lerpPoint ka.left_shoulder kb.left_shoulder t
  right_elbow := lerpPoint ka.right_elbow kb.right_elbow t
  left_elbow := lerpPoint ka.left_elbow kb.left_elbow t
  right_wrist := lerpPoint ka.right_wrist kb.right_wrist t
  left_wrist := lerpPoint ka.left_wrist kb.left_wrist t
  right_hip := lerpPoint ka.right_hip kb.right_hip t
  left_hip := lerpPoint ka.left_hip kb.left_hip t
  right_knee := lerpPoint ka.right_knee kb.right_knee t
  left_knee := lerpPoint ka.left_knee kb.left_knee t
  right_ankle := lerpPoint ka.right_ankle kb.right_ankle t
  left_ankle := lerpPoint ka.left_ankle kb.left_ankle t

/-- The continuous source position of output frame `i`:
`t = i / max(target_frames - 1, 1) * max(n_src - 1, 1)`
(`pipeline/poses.py`, line 95; Python `/` is exact on these values, so
`ℚ` models it). -/
def srcPos (nSrc T i : ℕ) : ℚ :=
  (i : ℚ) / (max (T - 1) 1 : ℕ) * (max (nSrc - 1) 1 : ℕ)

/-- Source `idx_lo = int(t)`; `t ≥ 0` here so `int` truncation is the floor. -/
def idxLoOf (nSrc T i : ℕ) : ℕ := (⌊srcPos nSrc T i⌋).toNat

/-- One iteration of the interpolation loop (`pipeline/poses.py`,
lines 93-101): `idx_hi = min(idx_lo + 1, n_src - 1)`,
`alpha = t - idx_lo`, and the two list accesses `src_frames[idx_lo]`,
`src_frames[idx_hi]`, either of which raises `IndexError` when out of
range. -/
def interpStep (src : List PoseFrame) (nSrc T i : ℕ) : Except PyError PoseKeypoints :=
  let lo := idxLoOf nSrc T i
  let hi := min (lo + 1) (nSrc - 1)
  let alpha := srcPos nSrc T i - (lo : ℚ)
  match src.get? lo, src.get? hi with
  | some flo, some fhi => .ok (lerpKeypoints flo.keypoints fhi.keypoints alpha)
  | _, _ => .error .indexError

/-- The `for i in range(target_frames)` loop of `interpolate_poses`,
collecting results in order and propagating the first raised error. -/
def interpLoop (src : List PoseFrame) (nSrc T : ℕ) : List ℕ → Except PyError (List PoseKeypoints)
  | [] => .ok []
  | i :: rest => do
      let kp ← interpStep src nSrc T i
      let others ← interpLoop src nSrc T rest
      .ok (kp :: others)

/-- Source `interpolate_poses(sequence, target_frames)`
(`pipeline/poses.py`, lines 67-103): validates inputs, short-circuits when
the frame counts already match, otherwise runs the interpolation loop. -/
def interpolate_poses (sequence : PoseSequence) (target_frames : ℤ) :
    Except PyError (List PoseKeypoints) :=
  let src := sequence.frames
  let nSrc := src.length
  if nSrc = 0 then
    .error (.valueError ("Pose sequence '" ++ sequence.name ++ "' has no frames"))
  else if target_frames ≤ 0 then
    .error (.valueError "target_frames must be positive")
  else if (nSrc : ℤ) = target_frames then
    .ok (src.map (fun f => f.keypoints))
  else
    interpLoop src nSrc target_frames.toNat (List.range target_frames.toNat)

/-! ## Images, the assembler's filesystem, and sprite-sheet assembly
(`animeforge/pipeline/assembly.py`) -/

/-- An RGBA pixel (each channel a byte value). -/
structure RGBA where
  r : ℕ
  g : ℕ
  b : ℕ
  a : ℕ
deriving DecidableEq, Repr

/-- A raster image: dimensions plus a total pixel function. Pixels outside
the dimensions are irrelevant to every statement below. -/
structure Image where
  width : ℕ
  height : ℕ
  pix : ℕ → ℕ → RGBA

/-- The state of one path in the filesystem seen by `Image.open`: absent,
present but not decodable as an image (for example zero-byte), or a
decodable image. -/
inductive FileEntry where
  | missing
  | corrupt
  | image (img : Image)

/-- The filesystem: a total map from path strings to file states. -/
def FS := String → FileEntry

/-- The single-quoted rendering of a path inside a Python error message. -/
def quotedPath (path : String) : String := "'" ++ path ++ "'"

/-- Models `Image.open(frame_path).convert("RGBA")` (`pipeline/assembly.py`,
line 63). A missing path raises `FileNotFoundError` and an undecodable file
raises `PIL.UnidentifiedImageError`; both messages name the path (and only
the path — the assembler installs no handler that could add more context). -/
def openRGBA (fs : FS) (path : String) : Except String Image :=
  match fs path with
  | .missing => .error ("[Errno 2] No such file or directory: " ++ quotedPath path)
  | .corrupt => .error ("cannot identify image file " ++ quotedPath path)
  | .image img => .ok img

/-- Models `img.resize((fw, fh), Image.LANCZOS)`: the output dimensions are
exactly `(w, h)`. The resampled pixel values are not specified by any claim;
they are modelled by coordinate scaling. -/
def resize (img : Image) (w h : ℕ) : Image :=
  ⟨w, h, fun x y => img.pix (x * img.width / w) (y * img.height / h)⟩

/-- One channel of Pillow's paste-with-mask compositing:
`out = old + (new - old) * mask / 255`, integer arithmetic. -/
def mixChannel (o n m : ℕ) : ℕ := (o * (255 - m) + n * m) / 255

/-- Composite a new pixel over an old one using the new pixel's own alpha
as the paste mask (`sheet.paste(img, (x, y), img)`). The exact in-region
rounding is immaterial to the claims, which only inspect pixels outside
every pasted region. -/
def blend (o n : RGBA) : RGBA :=
  ⟨mixChannel o.r n.r n.a, mixChannel o.g n.g n.a,
   mixChannel o.b n.b n.a, mixChannel o.a n.a n.a⟩

/-- Models `sheet.paste(img, (ox, oy), img)` (`pipeline/assembly.py`,
line 76): pixels inside the pasted box are composited, all others are
untouched, and the sheet's dimensions are unchanged. -/
def pasteMask (base : Image) (img : Image) (ox oy : ℕ) : Image :=
  { base with
    pix := fun x y =>
      if ox ≤ x ∧ x < ox + img.width ∧ oy ≤ y ∧ y < oy + img.height then
        blend (base.pix x y) (img.pix (x - ox) (y - oy))
      else base.pix x y }

/-- The paste offset of frame `idx` (`pipeline/assembly.py`, lines 69-74):
`(idx * (fw + padding), 0)` horizontally, `(0, idx * (fh + padding))`
otherwise. -/
def framePos (direction : String) (fw fh padding idx : ℕ) : ℕ × ℕ :=
  if direction = "horizontal" then (idx * (fw + padding), 0)
  else (0, idx * (fh + padding))

/-- The `for idx, frame_path in enumerate(frames)` loop of
`assemble_sprite_sheet` (`pipeline/assembly.py`, lines 62-76): open each
frame (propagating the library error unchanged if it is unreadable), resize
it when its size differs from `(fw, fh)`, and paste it at its offset. -/
def pasteFrames (fs : FS) (fw fh padding : ℕ) (direction : String) :
    List String → ℕ → Image → Except String Image
  | [], _, sheet => .ok sheet
  | path :: rest, idx, sheet =>
    match openRGBA fs path with
    | .error e => .error e
    | .ok img0 =>
      let img := if img0.width = fw ∧ img0.height = fh then img0 else resize img0 fw fh
      let pos := framePos direction fw fh padding idx
      pasteFrames fs fw fh padding direction rest (idx + 1)
        (pasteMask sheet img pos.1 pos.2)

/-- Source `assemble_sprite_sheet(frames, output, frame_size, direction,
padding)` (`pipeline/assembly.py`, lines 16-84), returning the assembled
sheet instead of writing it to `output`. The canvas is
`fw * n + padding * max(n - 1, 0)` wide (`ℕ` subtraction is that `max`)
when `direction == "horizontal"`, and the transposed shape otherwise;
its background is fully transparent `(0, 0, 0, 0)`. -/
def assemble_sprite_sheet (fs : FS) (frames : List String) (frame_size : ℕ × ℕ)
    (direction : String) (padding : ℕ) : Except String Image :=
  if frames = [] then .error "No frames provided for sprite sheet assembly"
  else
    let fw := frame_size.1
    let fh := frame_size.2
    let n := frames.length
    let sheetW := if direction = "horizontal" then fw * n + padding * (n - 1) else fw
    let sheetH := if direction = "horizontal" then fh else fh * n + padding * (n - 1)
    pasteFrames fs fw fh padding direction frames 0
      ⟨sheetW, sheetH, fun _ _ => ⟨0, 0, 0, 0⟩⟩

/-! ## MD5 (RFC 1321), used by the mock backend's `_prompt_seed`
(`animeforge/backend/mock.py`, lines 68-70: the seed for an unset request
seed is `int(hashlib.md5(prompt.encode()).hexdigest()[:8], 16)`). All
arithmetic is on `ℕ` with explicit reduction modulo `2^32`. -/

/-- Reduce modulo `2^32`. -/
def w32 (n : ℕ) : ℕ := n % 4294967296

/-- Bitwise complement of a 32-bit value. -/
def bnot32 (x : ℕ) : ℕ := 4294967295 - x

/-- Rotate a 32-bit value left by `c` (for `0 < c < 32`): the high part
wraps around into the low bits. -/
def rotl32 (x c : ℕ) : ℕ := w32 (x * 2 ^ c) + x / 2 ^ (32 - c)

/-- The 64 MD5 sine-derived constants `K[i] = floor(2^32 * abs(sin(i+1)))`. -/
def md5K : List ℕ := [
  3614090360, 3905402710, 606105819, 3250441966, 4118548399, 1200080426,
  2821735955, 4249261313, 1770035416, 2336552879, 4294925233, 2304563134,
  1804603682, 4254626195, 2792965006, 1236535329, 4129170786, 3225465664,
  643717713, 3921069994, 3593408605, 38016083, 3634488961, 3889429448,
  568446438, 3275163606, 4107603335, 1163531501, 2850285829, 4243563512,
  1735328473, 2368359562, 4294588738, 2272392833, 1839030562, 4259657740,
  2763975236, 1272893353, 4139469664, 3200236656, 681279174, 3936430074,
  3572445317, 76029189, 3654602809, 3873151461, 530742520, 3299628645,
  4096336452, 1126891415, 2878612391, 4237533241, 1700485571, 2399980690,
  4293915773, 2240044497, 1873313359, 4264355552, 2734768916, 1309151649,
  4149444226, 3174756917, 718787259, 3951481745]

/-- The 64 MD5 per-round left-rotation amounts. -/
def md5S : List ℕ := [
  7, 12, 17, 22, 7, 12, 17, 22, 7, 12, 17, 22, 7, 12, 17, 22,
  5, 9, 14, 20, 5, 9, 14, 20, 5, 9, 14, 20, 5, 9, 14, 20,
  4, 11, 16, 23, 4, 11, 16, 23, 4, 11, 16, 23, 4, 11, 16, 23,
  6, 10, 15, 21, 6, 10, 15, 21, 6, 10, 15, 21, 6, 10, 15, 21]

/-- The MD5 nonlinear function of round `i` applied to `(b, c, d)`. -/
def md5F (i b c d : ℕ) : ℕ :=
  if i < 16 then (b &&& c) ||| (bnot32 b &&& d)
  else if i < 32 then (d &&& b) ||| (bnot32 d &&& c)
  else if i < 48 then b ^^^ c ^^^ d
  else c ^^^ (b ||| bnot32 d)

/-- The message-word index used in round `i`. -/
def md5G (i : ℕ) : ℕ :=
  if i < 16 then i
  else if i < 32 then (5 * i + 1) % 16
  else if i < 48 then (3 * i + 5) % 16
  else (7 * i) % 16

/-- One of the 64 MD5 rounds over the running `(a, b, c, d)` state, using
the 16 message words `M` of the current chunk. -/
def md5Round (M : List ℕ) (st : ℕ × ℕ × ℕ × ℕ) (i : ℕ) : ℕ × ℕ × ℕ × ℕ :=
  let f := w32 (md5F i st.2.1 st.2.2.1 st.2.2.2 + st.1 + md5K.getD i 0 + M.getD (md5G i) 0)
  (st.2.2.2, w32 (st.2.1 + rotl32 f (md5S.getD i 0)), st.2.1, st.2.2.1)

/-- Process one 512-bit chunk: 64 rounds, then add the chunk result into
the running state. -/
def md5Chunk (st : ℕ × ℕ × ℕ × ℕ) (M : List ℕ) : ℕ × ℕ × ℕ × ℕ :=
  let r := (List.range 64).foldl (md5Round M) st
  (w32 (st.1 + r.1), w32 (st.2.1 + r.2.1), w32 (st.2.2.1 + r.2.2.1), w32 (st.2.2.2 + r.2.2.2))

/-- Group a byte list into 32-bit words, little-endian. -/
def toWordsLE : List ℕ → List ℕ
  | b0 :: b1 :: b2 :: b3 :: rest =>
      (b0 + 256 * b1 + 65536 * b2 + 16777216 * b3) :: toWordsLE rest
  | _ => []

/-- The 8-byte little-endian encoding of the 64-bit bit-length. -/
def lenBytesLE (n : ℕ) : List ℕ :=
  [n % 256, n / 256 % 256, n / 65536 % 256, n / 16777216 % 256,
   n / 4294967296 % 256, n / 1099511627776 % 256,
   n / 281474976710656 % 256, n / 72057594037927936 % 256]

/-- MD5 padding: append `0x80`, zero-pad to 56 mod 64 bytes, then append
the original length in bits, little-endian. -/
def padMsg (msg : List ℕ) : List ℕ :=
  let len := msg.length
  let zeros := (120 - (len + 1) % 64) % 64
  msg ++ [128] ++ List.replicate zeros 0 ++ lenBytesLE ((8 * len) % 18446744073709551616)

/-- Split a (padded) byte list into 64-byte blocks. -/
def toBlocks (l : List ℕ) : List (List ℕ) :=
  if _h : l.length = 0 then [] else l.take 64 :: toBlocks (l.drop 64)
termination_by l.length
decreasing_by simp [List.length_drop]; omega

/-- The MD5 state words after digesting a whole message. -/
def md5Words (msg : List ℕ) : ℕ × ℕ × ℕ × ℕ :=
  (toBlocks (padMsg msg)).foldl (fun st block => md5Chunk st (toWordsLE block))
    (1732584193, 4023233417, 2562383102, 271733878)

/-- The 4 little-endian bytes of one state word. -/
def bytesLE4 (wd : ℕ) : List ℕ :=
  [wd % 256, wd / 256 % 256, wd / 65536 % 256, wd / 16777216 % 256]

/-- The 16-byte MD5 digest (the bytes whose hex rendering is
`hexdigest()`). -/
def md5Bytes (msg : List ℕ) : List ℕ :=
  let st := md5Words msg
  bytesLE4 st.1 ++ bytesLE4 st.2.1 ++ bytesLE4 st.2.2.1 ++ bytesLE4 st.2.2.2

/-- Source `_prompt_seed(prompt) = int(md5(prompt.encode()).hexdigest()[:8], 16)`
(`backend/mock.py`, lines 68-70): the first 8 hex digits are the first 4
digest bytes read as a big-endian number. -/
def promptSeed (prompt : String) : ℤ :=
  (((md5Bytes (prompt.toUTF8.toList.map UInt8.toNat)).take 4).foldl
    (fun acc b => 256 * acc + b) 0 : ℕ)

/-! ## Shared backend types (`animeforge/backend/base.py`) -/

/-- Source `GenerationRequest` dataclass with its declared defaults
(`backend/base.py`, lines 13-39); float fields are rationals, `Path`
fields are path strings. -/
structure GenerationRequest where
  prompt : String
  negative_prompt : String := ""
  width : ℕ := 1024
  height : ℕ := 1024
  steps : ℕ := 30
  cfg_scale : ℚ := 7
  sampler : String := "euler_ancestral"
  scheduler : String := "normal"
  seed : ℤ := -1
  batch_size : ℕ := 1
  controlnet_image : Option String := none
  controlnet_model : Option String := none
  controlnet_strength : ℚ := 1
  ip_adapter_image : Option String := none
  ip_adapter_model : Option String := none
  ip_adapter_weight : ℚ := 3 / 4
  init_image : Option String := none
  denoise_strength : ℚ := 7 / 10
deriving DecidableEq, Repr

/-- Source `GenerationResult` dataclass (`backend/base.py`, lines 42-49);
the free-form metadata mapping is an association list of strings. -/
structure GenerationResult where
  images : List String
  seed : ℤ
  prompt : String
  metadata : List (String × String) := []
deriving DecidableEq, Repr

/-! ## Mock backend (`animeforge/backend/mock.py`)

The ten simulated progress ticks (awaited sleeps) are scheduling effects
with no influence on the produced data and are not part of the embedding. -/

/-- The content of the image produced by `_create_gradient_image`
(`backend/mock.py`, lines 73-98): dimensions, the per-row gradient colour,
and the two overlay text lines. The saved PNG's bytes are a deterministic
function of this record (and of the ambient fallback font, which is fixed
within any one environment), so byte-identical outputs follow from equal
records. -/
structure MockImage where
  width : ℕ
  height : ℕ
  rowColour : ℕ → ℕ × ℕ × ℕ
  label : String
  seedLine : String

/-- One colour channel of the gradient at interpolation parameter `t`:
Python `int(c1 + (c2 - c1) * t)`; the value lies between `c1` and `c2`,
hence is non-negative, so `int` truncation is the floor. -/
def chanAt (c1 c2 : ℕ) (t : ℚ) : ℕ := (⌊(c1 : ℚ) + ((c2 : ℚ) - (c1 : ℚ)) * t⌋).toNat

/-- Source `_create_gradient_image(width, height, prompt, seed)`
(`backend/mock.py`, lines 73-98). The seed's low three bytes give the top
colour, its complement the bottom colour; row `y` uses
`t = y / max(height - 1, 1)`; the overlay lines are
`"[MOCK] " + prompt[:80]` and `"seed={seed}  {width}x{height}"`. -/
def create_gradient_image (width height : ℕ) (prompt : String) (seed : ℤ) : MockImage :=
  let s := seed.toNat
  let r1 := s / 65536 % 256
  let g1 := s / 256 % 256
  let b1 := s % 256
  { width := width
    height := height
    rowColour := fun y =>
      let t : ℚ := (y : ℚ) / (max (height - 1) 1 : ℕ)
      (chanAt r1 (255 - r1) t, chanAt g1 (255 - g1) t, chanAt b1 (255 - b1) t)
    label := "[MOCK] " ++ (prompt.take 80)
    seedLine := "seed=" ++ toString seed ++ "  " ++ toString width ++ "x" ++ toString height }

/-- The mock backend's state: its output directory path and whether that
directory exists on disk. `MockBackend.__init__` stores the path; only
`connect` and `generate` create the directory. -/
structure MockState where
  outputDir : String
  dirExists : Bool

/-- Source `MockBackend.connect` (`backend/mock.py`, lines 27-28): creates
the output directory; no connection state is recorded anywhere. -/
def mock_connect (st : MockState) : MockState := ⟨st.outputDir, true⟩

/-- The seed expression of `backend/mock.py`, line 47, under its own name
so that theorems can speak about the seed the mock actually uses: the
request's seed when non-negative, otherwise `_prompt_seed(prompt)`. -/
def mockUsedSeed (request : GenerationRequest) : ℤ :=
  if request.seed ≥ 0 then request.seed else promptSeed request.prompt

/-- Source `MockBackend.generate` (`backend/mock.py`, lines 36-62): picks
the seed, renders the gradient image, creates the output directory itself,
and saves under a name derived from seed and size. It performs no
connection check and has no failure path, which the `Except` result type
makes explicit. -/
def mock_generate (st : MockState) (request : GenerationRequest) :
    Except String (MockImage × GenerationResult) × MockState :=
  let seed := mockUsedSeed request
  let img := create_gradient_image request.width request.height request.prompt seed
  let filename := "mock_" ++ toString seed ++ "_" ++ toString request.width ++ "x"
    ++ toString request.height ++ ".png"
  let outPath := st.outputDir ++ "/" ++ filename
  (.ok (img, { images := [outPath], seed := seed, prompt := request.prompt,
               metadata := [("backend", "mock")] }),
   ⟨st.outputDir, true⟩)

/-! ## ComfyUI backend (`animeforge/backend/comfyui.py`)

The workflow graph submitted to the `/prompt` endpoint is embedded as an
association list from node-id strings to nodes whose inputs are JSON-like
values. -/

/-- A JSON value appearing in a workflow node's inputs: a string, an
integer, a float (rational), or a `[node_id, slot]` connection. -/
inductive JVal where
  | s (v : String)
  | i (v : ℤ)
  | q (v : ℚ)
  | link (node : String) (slot : ℕ)
deriving DecidableEq, Repr

/-- One workflow node: a `class_type` and its `inputs` mapping. -/
structure WNode where
  class_type : String
  inputs : List (String × JVal)
deriving DecidableEq, Repr

/-- A ComfyUI workflow: node-id strings mapped to nodes, in insertion
order. -/
abbrev Workflow := List (String × WNode)

/-- Python dict update `workflow[nodeId]["inputs"][key] = v` for a key that
is already present. -/
def setInput (w : Workflow) (nodeId key : String) (v : JVal) : Workflow :=
  w.map fun e =>
    if e.1 = nodeId then
      (e.1, ⟨e.2.class_type, e.2.inputs.map fun kv => if kv.1 = key then (kv.1, v) else kv⟩)
    else e

/-- Source `ComfyUIBackend._add_controlnet` (`backend/comfyui.py`,
lines 203-244): append the ControlNet loader, guide-image loader and apply
nodes (ids continuing after the save node), then rewire the sampler's
`positive` and `negative` inputs to the apply node. -/
def comfy_add_controlnet (w : Workflow) (request : GenerationRequest)
    (cnImg cnModel _ckptId posId negId samplerId : String) (nodeId : ℕ) : Workflow :=
  let cnLoadId := toString (nodeId + 1)
  let cnImgId := toString (nodeId + 2)
  let cnApplyId := toString (nodeId + 3)
  let w2 := w ++ [
    (cnLoadId, ⟨"ControlNetLoader", [("control_net_name", .s cnModel)]⟩),
    (cnImgId, ⟨"LoadImage", [("image", .s cnImg)]⟩),
    (cnApplyId, ⟨"ControlNetApplyAdvanced",
      [("positive", .link posId 0), ("negative", .link negId 0),
       ("control_net", .link cnLoadId 0), ("image", .link cnImgId 0),
       ("strength", .q request.controlnet_strength)]⟩)]
  setInput (setInput w2 samplerId "positive" (.link cnApplyId 0))
    samplerId "negative" (.link cnApplyId 1)

/-- Source `ComfyUIBackend._build_workflow` (`backend/comfyui.py`,
lines 92-201), with the node-id numbering reproduced exactly: checkpoint 1,
prompts 2 and 3, then either `LoadImage`/`VAEEncode` at 4/5 (img2img) or
`EmptyLatentImage` at 4, then sampler, decode and save at the next three
ids. The `KSampler` seed input is
`request.seed if request.seed >= 0 else 0` (line 164). ControlNet nodes
are spliced in when both the guide image and a non-empty model name are
set (Python truthiness of the `and`). -/
def comfy_build_workflow (checkpoint : String) (request : GenerationRequest) : Workflow :=
  let ckptId := "1"
  let posId := "2"
  let negId := "3"
  let negText := if request.negative_prompt = "" then "low quality, blurry, deformed"
    else request.negative_prompt
  let base : Workflow := [
    (ckptId, ⟨"CheckpointLoaderSimple", [("ckpt_name", .s checkpoint)]⟩),
    (posId, ⟨"CLIPTextEncode", [("text", .s request.prompt), ("clip", .link ckptId 1)]⟩),
    (negId, ⟨"CLIPTextEncode", [("text", .s negText), ("clip", .link ckptId 1)]⟩)]
  let hasInit := request.init_image.isSome
  let latentNodes : Workflow :=
    match request.init_image with
    | some initPath =>
        [("4", ⟨"LoadImage", [("image", .s initPath)]⟩),
         ("5", ⟨"VAEEncode", [("pixels", .link "4" 0), ("vae", .link ckptId 2)]⟩)]
    | none =>
        [("4", ⟨"EmptyLatentImage",
          [("width", .i request.width), ("height", .i request.height),
           ("batch_size", .i request.batch_size)]⟩)]
  let latentId := if hasInit then "5" else "4"
  let samplerNum := if hasInit then 6 else 5
  let samplerId := toString samplerNum
  let decodeId := toString (samplerNum + 1)
  let saveId := toString (samplerNum + 2)
  let sampler : WNode := ⟨"KSampler",
    [("model", .link ckptId 0),
     ("positive", .link posId 0),
     ("negative", .link negId 0),
     ("latent_image", .link latentId 0),
     ("seed", .i (if request.seed ≥ 0 then request.seed else 0)),
     ("steps", .i request.steps),
     ("cfg", .q request.cfg_scale),
     ("sampler_name", .s request.sampler),
     ("scheduler", .s request.scheduler),
     ("denoise", .q (if hasInit then request.denoise_strength else 1))]⟩
  let core := base ++ latentNodes ++
    [(samplerId, sampler),
     (decodeId, ⟨"VAEDecode", [("samples", .link samplerId 0), ("vae", .link ckptId 2)]⟩),
     (saveId, ⟨"SaveImage", [("images", .link decodeId 0), ("filename_prefix", .s "animeforge")]⟩)]
  match request.controlnet_image, request.controlnet_model with
  | some cnImg, some cnModel =>
      if cnModel = "" then core
      else comfy_add_controlnet core request cnImg cnModel ckptId posId negId samplerId
        (samplerNum + 2)
  | _, _ => core

/-- The ComfyUI backend's connection state: `connect` stores an HTTP
client in `self._client`, `disconnect` clears it. The client's identity is
irrelevant here. -/
structure ComfyState where
  client : Option Unit

/-- Source `ComfyUIBackend._ensure_client` (`backend/comfyui.py`,
lines 86-90): raises `RuntimeError("Not connected. Call connect() first.")`
when `connect` has not stored a client. -/
def comfy_ensure_client (st : ComfyState) : Except String Unit :=
  match st.client with
  | none => .error "Not connected. Call connect() first."
  | some c => .ok c

/-- Source `ComfyUIBackend.connect` (`backend/comfyui.py`, lines 34-38). -/
def comfy_connect (_st : ComfyState) : ComfyState := ⟨some ()⟩

/-- The network's contribution to one ComfyUI `generate` call: the
`prompt_id` returned by `/prompt` and the image files the completed job's
history yields. Queueing, polling and the 600 s timeout of
`_wait_for_result` are network effects outside this fragment. -/
structure ComfyNet where
  promptId : String
  images : List String

/-- Source `ComfyUIBackend.generate` (`backend/comfyui.py`, lines 53-77):
checks the client first (failing fast when not connected), builds and
submits the workflow graph, and returns the downloaded images with the
request's seed echoed. The returned pair also exposes the submitted
workflow so that theorems can inspect the job graph. -/
def comfy_generate (st : ComfyState) (net : ComfyNet) (checkpoint : String)
    (request : GenerationRequest) : Except String (Workflow × GenerationResult) :=
  match comfy_ensure_client st with
  | .error e => .error e
  | .ok _ =>
    let workflow := comfy_build_workflow checkpoint request
    .ok (workflow,
      { images := net.images, seed := request.seed, prompt := request.prompt,
        metadata := [("prompt_id", net.promptId)] })

/-! ## fal.ai backend (`animeforge/backend/fal_backend.py`) -/

/-- The configured fal.ai settings (`config.FalSettings` fields the backend
reads). -/
structure FalSettings where
  api_key : String
  default_model : String
  controlnet_model : String
  ip_adapter_model : String
deriving DecidableEq, Repr

/-- The fal backend's state: `self._api_key`, the empty string until
`connect` resolves it. -/
structure FalState where
  apiKey : String
deriving DecidableEq, Repr

/-- Source `FalBackend.connect` (`backend/fal_backend.py`, lines 33-36):
`self._api_key = settings.api_key or os.environ.get("FAL_KEY", "")`. -/
def fal_connect (settings : FalSettings) (envKey : String) (_st : FalState) : FalState :=
  ⟨if settings.api_key ≠ "" then settings.api_key else envKey⟩

/-- Source `FalBackend._select_endpoint` (`backend/fal_backend.py`,
lines 115-121): pose-guide conditioning wins over identity-reference
conditioning, else the default model. -/
def fal_select_endpoint (settings : FalSettings) (request : GenerationRequest) : String :=
  match request.controlnet_image, request.controlnet_model with
  | some _, some m =>
      if m = "" then
        if request.ip_adapter_image.isSome then settings.ip_adapter_model
        else settings.default_model
      else settings.controlnet_model
  | _, _ =>
      if request.ip_adapter_image.isSome then settings.ip_adapter_model
      else settings.default_model

/-- The network's contribution to one fal `generate` call: the `seed`
field of the subscribe result (absent when the endpoint returns none) and
the image URLs it lists. Upload, queueing and HTTP transfer are network
effects outside this fragment. -/
structure FalNet where
  subscribeSeed : Option ℤ
  imageUrls : List String

/-- Source `FalBackend.generate` together with `_download_images`
(`backend/fal_backend.py`, lines 58-105 and 169-195): selects the
endpoint, submits, downloads each non-empty URL to
`fal_{seed}_{width}x{height}_{i}.png` (keeping the enumeration index), and
echoes `result.get("seed", request.seed)`. No connection or API-key check
is performed anywhere on this path, which the unconditional `.ok` makes
explicit. -/
def fal_generate (_st : FalState) (settings : FalSettings) (net : FalNet)
    (request : GenerationRequest) : Except String GenerationResult :=
  let endpoint := fal_select_endpoint settings request
  let seed := net.subscribeSeed.getD request.seed
  let images := net.imageUrls.enum.filterMap fun iu =>
    if iu.2 = "" then none
    else some ("fal_" ++ toString seed ++ "_" ++ toString request.width ++ "x"
      ++ toString request.height ++ "_" ++ toString iu.1 ++ ".png")
  .ok { images := images, seed := seed, prompt := request.prompt,
        metadata := [("backend", "fal"), ("endpoint", endpoint)] }

/-! ## Character animation orchestrator
(`animeforge/pipeline/character_gen.py`)

The pose-guide rendering, prompt construction and request building affect
only data the claims do not consult; the backend call of frame `idx` of
animation `anim` is abstracted by an oracle giving the `images` list of
the backend's `GenerationResult` for `(anim.id, idx)`. -/

/-- Source `AnimationDef` (`models/character.py`) with its declared
defaults. -/
structure AnimationDef where
  id : String
  name : String
  zone_id : String
  pose_sequence : String
  frame_count : ℤ := 8
  fps : ℤ := 12
  loop : Bool := true
  sprite_sheet : Option String := none
deriving DecidableEq, Repr

/-- The pose catalog seen through `load_pose_sequence`: a name resolves to
a sequence, or to `none` when the loader raises `FileNotFoundError`
(`poses/loader.py`, lines 47-49). -/
def PoseLib := String → Option PoseSequence

/-- The backend's contribution per frame: the `images` of the
`GenerationResult` returned for frame `idx` of the animation with the
given id. -/
def GenOracle := String → ℕ → List Image

/-- Python `f"{idx:03d}"`. -/
def pad3 (n : ℕ) : String :=
  if n < 10 then "00" ++ toString n
  else if n < 100 then "0" ++ toString n
  else toString n

/-- The frame files collected by the per-frame loop
(`pipeline/character_gen.py`, lines 100-144): frame `idx` contributes
`frame_{idx:03d}.png` holding the first returned image exactly when the
backend returned at least one image. -/
def collectFrames (gen : GenOracle) (animId : String) (n : ℕ) : List (String × Image) :=
  (List.range n).filterMap fun idx =>
    match gen animId idx with
    | [] => none
    | img :: _ => some ("frame_" ++ pad3 idx ++ ".png", img)

/-- The warnings logged by the per-frame loop for frames whose generation
returned zero images (`pipeline/character_gen.py`, line 144). -/
def frameWarnings (gen : GenOracle) (animId : String) (n : ℕ) : List String :=
  (List.range n).filterMap fun idx =>
    match gen animId idx with
    | [] => some ("  frame " ++ toString idx ++ " returned no image")
    | _ :: _ => none

/-- The scratch directory's contents when the sheet is assembled: exactly
the collected frame files, each a decodable image. -/
def tmpFS (entries : List (String × Image)) : FS := fun p =>
  match entries.lookup p with
  | some img => .image img
  | none => .missing

/-- The sheet path `output_dir / f"{character.name}_{anim.id}.png"`
(`pipeline/character_gen.py`, line 148). -/
def sheetPath (outputDir charName animId : String) : String :=
  outputDir ++ "/" ++ charName ++ "_" ++ animId ++ ".png"

/-- The warning logged when a pose sequence is missing
(`pipeline/character_gen.py`, lines 79-83). -/
def seqWarning (anim : AnimationDef) : String :=
  "Pose sequence '" ++ anim.pose_sequence ++ "' not found, skipping animation '"
    ++ anim.id ++ "'"

/-- An exception escaping the orchestrator: one raised by
`interpolate_poses`, or one raised by `assemble_sprite_sheet`. -/
inductive OrchError where
  | interp (e : PyError)
  | assembly (msg : String)
deriving DecidableEq, Repr

/-- Source `generate_character_animations` (`pipeline/character_gen.py`,
lines 20-160), restricted to the animation loop: per animation, resolve
the pose sequence (on `FileNotFoundError` log a warning and `continue`),
interpolate to `frame_count` (errors propagate), collect the successful
frames, and — only when at least one frame succeeded — assemble the
horizontal sheet (default direction and padding) and record the mapping
entry. Returns the `animation_id → sheet path` association list in
processing order together with the logged warnings. -/
def generate_character_animations (poseLib : PoseLib) (gen : GenOracle)
    (cfgW cfgH : ℕ) (outputDir charName : String) :
    List AnimationDef → Except OrchError (List (String × String) × List String)
  | [] => .ok ([], [])
  | anim :: rest =>
    match poseLib anim.pose_sequence with
    | none =>
      match generate_character_animations poseLib gen cfgW cfgH outputDir charName rest with
      | .error e => .error e
      | .ok (res, warns) => .ok (res, seqWarning anim :: warns)
    | some seq =>
      match interpolate_poses seq anim.frame_count with
      | .error e => .error (.interp e)
      | .ok kps =>
        let frames := collectFrames gen anim.id kps.length
        let warns0 := frameWarnings gen anim.id kps.length
        if frames.isEmpty then
          match generate_character_animations poseLib gen cfgW cfgH outputDir charName rest with
          | .error e => .error e
          | .ok (res, warns) => .ok (res, warns0 ++ warns)
        else
          match assemble_sprite_sheet (tmpFS frames) (frames.map Prod.fst) (cfgW, cfgH)
              "horizontal" 0 with
          | .error msg => .error (.assembly msg)
          | .ok _sheet =>
            match generate_character_animations poseLib gen cfgW cfgH outputDir charName rest with
            | .error e => .error e
            | .ok (res, warns) =>
              .ok ((anim.id, sheetPath outputDir charName anim.id) :: res, warns0 ++ warns)

/-! ## Concrete fixtures -/

/-- A keypoint set whose 14 joints all carry the same point. -/
def mkKp (p : Point) : PoseKeypoints :=
  ⟨p, p, p, p, p, p, p, p, p, p, p, p, p, p⟩

/-- A one-frame pose sequence, as in the repository's own test
`test_interpolate_poses_single_source_frame` (nose `[0.3, 0.2, 1.0]`). -/
def singleFrameSeq : PoseSequence :=
  ⟨"single", [⟨mkKp ⟨3 / 10, 1 / 5, 1⟩, 83⟩], true⟩

/-! ## C1-C3: interpolation of a single-frame sequence

For a source with `n_src = 1` and `target_frames = T ≥ 2`, line 95 of
`pipeline/poses.py` computes `t = i / max(T - 1, 1) * max(1 - 1, 1)
= i / (T - 1)`, which reaches `1.0` at the final output index `i = T - 1`;
`idx_lo = int(1.0) = 1` then indexes past the end of the one-element frame
list and the loop raises `IndexError`. The repository's own test
`test_interpolate_poses_single_source_frame` asserts that
`interpolate_poses(seq, 5)` returns 5 copies instead, so the code
contradicts its test suite (and the spec): a code bug, witnessed by the
following evaluations. -/

/-- C1: the claim says a one-frame sequence interpolated to any
`T ≥ 1` yields `T` copies of that frame without error; evaluating the code
at `T = 5` (the test suite's own input) instead raises `IndexError` at the
final output index. -/
theorem C1_single_frame_interpolation_raises :
    interpolate_poses singleFrameSeq 5 = .error .indexError := by
  have hr : List.range 5 = [0, 1, 2, 3, 4] := rfl
  have h0 : idxLoOf 1 5 0 = 0 := by norm_num [idxLoOf, srcPos]
  have h1 : idxLoOf 1 5 1 = 0 := by norm_num [idxLoOf, srcPos]
  have h2 : idxLoOf 1 5 2 = 0 := by norm_num [idxLoOf, srcPos]
  have h3 : idxLoOf 1 5 3 = 0 := by norm_num [idxLoOf, srcPos]
  have h4 : idxLoOf 1 5 4 = 1 := by norm_num [idxLoOf, srcPos]
  simp [interpolate_poses, singleFrameSeq, hr, interpLoop, interpStep,
    h0, h1, h2, h3, h4, Bind.bind, Except.bind]

/-- C2: the claim says every sequence with at least one frame yields
exactly `T` output keypoint sets for every `T ≥ 1`; evaluating the code on
a one-frame sequence at `T = 2` raises `IndexError` instead of returning a
2-element list. -/
theorem C2_length_contract_violated_at_single_frame :
    interpolate_poses singleFrameSeq 2 = .error .indexError := by
  have hr : List.range 2 = [0, 1] := rfl
  have h0 : idxLoOf 1 2 0 = 0 := by norm_num [idxLoOf, srcPos]
  have h1 : idxLoOf 1 2 1 = 1 := by norm_num [idxLoOf, srcPos]
  simp [interpolate_poses, singleFrameSeq, hr, interpLoop, interpStep,
    h0, h1, Bind.bind, Except.bind]

/-- C3: the claim asserts endpoint exactness for every `N ≥ 1` and
`T ≥ 2`; at `N = 1`, `T = 3` the code raises `IndexError` instead of
producing any output frames at all. -/
theorem C3_endpoints_unreachable_at_single_frame :
    interpolate_poses singleFrameSeq 3 = .error .indexError := by
  have hr : List.range 3 = [0, 1, 2] := rfl
  have h0 : idxLoOf 1 3 0 = 0 := by norm_num [idxLoOf, srcPos]
  have h1 : idxLoOf 1 3 1 = 0 := by norm_num [idxLoOf, srcPos]
  have h2 : idxLoOf 1 3 2 = 1 := by norm_num [idxLoOf, srcPos]
  simp [interpolate_poses, singleFrameSeq, hr, interpLoop, interpStep,
    h0, h1, h2, Bind.bind, Except.bind]

/-! ## The interpolation contract away from the single-frame bug

Supporting results (not claims): for sources with at least two frames the
length contract and endpoint exactness do hold, confirming that the
failures proved above are confined to `n_src = 1`. -/

/-- Interpolating with parameter 0 returns the first argument exactly. -/
lemma lerp_zero (a b : ℚ) : lerp a b 0 = a := by simp [lerp]

/-- Pointwise version of `lerp_zero`. -/
lemma lerpPoint_zero (a b : Point) : lerpPoint a b 0 = a := by
  cases a
  simp [lerpPoint, lerp_zero]

/-- Keypoint-set version of `lerp_zero`. -/
lemma lerpKeypoints_zero (ka kb : PoseKeypoints) : lerpKeypoints ka kb 0 = ka := by
  cases ka
  simp [lerpKeypoints, lerpPoint_zero]

/-- With at least two source frames, every loop index below `T` yields a
well-defined interpolation step: the continuous position stays at or below
`n_src - 1`, so both list accesses are in range. -/
lemma interpStep_isOk (src : List PoseFrame) (T i : ℕ) (h2 : 2 ≤ src.length)
    (hi : i < T) : ∃ kp, interpStep src src.length T i = .ok kp := by
  set n := src.length with hn
  have hmaxn : (max (n - 1) 1 : ℕ) = n - 1 := by omega
  have hile : i ≤ max (T - 1) 1 := by omega
  have hdenom : (0 : ℚ) < ((max (T - 1) 1 : ℕ) : ℚ) := by
    have : 1 ≤ max (T - 1) 1 := Nat.le_max_right _ _
    exact_mod_cast Nat.lt_of_lt_of_le Nat.zero_lt_one this
  have hdiv : (i : ℚ) / ((max (T - 1) 1 : ℕ) : ℚ) ≤ 1 := by
    rw [div_le_one hdenom]
    exact_mod_cast hile
  have hpos : srcPos n T i ≤ ((n - 1 : ℕ) : ℚ) := by
    rw [srcPos, hmaxn]
    calc (i : ℚ) / ((max (T - 1) 1 : ℕ) : ℚ) * ((n - 1 : ℕ) : ℚ)
        ≤ 1 * ((n - 1 : ℕ) : ℚ) := by
          apply mul_le_mul_of_nonneg_right hdiv
          positivity
      _ = ((n - 1 : ℕ) : ℚ) := one_mul _
  have hfloor : ⌊srcPos n T i⌋ ≤ ((n - 1 : ℕ) : ℤ) := by
    calc ⌊srcPos n T i⌋ ≤ ⌊((n - 1 : ℕ) : ℚ)⌋ := Int.floor_le_floor hpos
      _ = ((n - 1 : ℕ) : ℤ) := Int.floor_natCast _
  have hlo : idxLoOf n T i ≤ n - 1 := by
    rw [idxLoOf]
    exact Int.toNat_le.mpr hfloor
  have hlolt : idxLoOf n T i < n := by omega
  have hhilt : min (idxLoOf n T i + 1) (n - 1) < n := by omega
  have hstep : interpStep src n T i
      = .ok (lerpKeypoints (src.get ⟨idxLoOf n T i, hlolt⟩).keypoints
          (src.get ⟨min (idxLoOf n T i + 1) (n - 1), hhilt⟩).keypoints
          (srcPos n T i - ((idxLoOf n T i : ℕ) : ℚ))) := by
    simp only [interpStep]
    rw [List.get?_eq_get hlolt, List.get?_eq_get hhilt]
  exact ⟨_, hstep⟩

/-- If every index of the iteration list has a well-defined step, the
interpolation loop succeeds, produces one output per index, and the output
at position `j` is the step value of the index at position `j`. -/
lemma interpLoop_ok_of_steps (src : List PoseFrame) (nSrc T : ℕ) :
    ∀ l : List ℕ, (∀ i ∈ l, ∃ kp, interpStep src nSrc T i = .ok kp) →
      ∃ out, interpLoop src nSrc T l = .ok out ∧ out.length = l.length ∧
        ∀ j i, l.get? j = some i →
          ∃ kp, out.get? j = some kp ∧ interpStep src nSrc T i = .ok kp := by
  intro l
  induction l with
  | nil =>
    intro _
    exact ⟨[], rfl, rfl, by intro j i h; simp at h⟩
  | cons i0 rest ih =>
    intro hsteps
    obtain ⟨kp0, hkp0⟩ := hsteps i0 (List.mem_cons_self _ _)
    obtain ⟨out, hout, hlen, hget⟩ :=
      ih fun i hi => hsteps i (List.mem_cons_of_mem _ hi)
    refine ⟨kp0 :: out, ?_, by simpa using hlen, ?_⟩
    · simp [interpLoop, hkp0, hout, Bind.bind, Except.bind]
    · intro j i hj
      cases j with
      | zero =>
        simp at hj
        subst hj
        exact ⟨kp0, rfl, hkp0⟩
      | succ j' => exact hget j' i (by simpa using hj)

/-- The step at output index 0 returns the first source frame's keypoints
unchanged: the continuous position is 0 and the fractional part 0. -/
lemma interpStep_zero (src : List PoseFrame) (T : ℕ) (h2 : 2 ≤ src.length)
    (f0 : PoseFrame) (hf0 : src.get? 0 = some f0) :
    interpStep src src.length T 0 = .ok f0.keypoints := by
  have hsp : srcPos src.length T 0 = 0 := by simp [srcPos]
  have hlo : idxLoOf src.length T 0 = 0 := by simp [idxLoOf, hsp]
  have h1lt : 1 < src.length := h2
  have hf1 : src.get? 1 = some (src.get ⟨1, h1lt⟩) := List.get?_eq_get h1lt
  have hmin : min (0 + 1) (src.length - 1) = 1 := by omega
  simp only [interpStep, hlo, hmin, hf0, hf1, hsp]
  rw [show (0 : ℚ) - ((0 : ℕ) : ℚ) = 0 by norm_num, lerpKeypoints_zero]

/-- The step at output index `T - 1` returns the last source frame's
keypoints unchanged: the continuous position is exactly `n_src - 1` and
the fractional part 0. -/
lemma interpStep_last (src : List PoseFrame) (T : ℕ) (h2 : 2 ≤ src.length)
    (h2T : 2 ≤ T) (flast : PoseFrame)
    (hfl : src.get? (src.length - 1) = some flast) :
    interpStep src src.length T (T - 1) = .ok flast.keypoints := by
  set n := src.length with hn
  have hmaxT : (max (T - 1) 1 : ℕ) = T - 1 := by omega
  have hmaxn : (max (n - 1) 1 : ℕ) = n - 1 := by omega
  have hTne : ((T - 1 : ℕ) : ℚ) ≠ 0 := by
    have : 0 < T - 1 := by omega
    exact_mod_cast Nat.pos_iff_ne_zero.mp this
  have hsp : srcPos n T (T - 1) = ((n - 1 : ℕ) : ℚ) := by
    rw [srcPos, hmaxT, hmaxn, div_self hTne, one_mul]
  have hlo : idxLoOf n T (T - 1) = n - 1 := by
    rw [idxLoOf, hsp, Int.floor_natCast]
    exact Int.toNat_natCast _
  have hmin : min (n - 1 + 1) (n - 1) = n - 1 := by omega
  simp only [interpStep, hlo, hmin, ← hn, hfl, hsp]
  rw [show ((n - 1 : ℕ) : ℚ) - ((n - 1 : ℕ) : ℚ) = 0 by ring, lerpKeypoints_zero]

/-- With at least two source frames the interpolation contract holds in
full: `interpolate_poses` succeeds, returns exactly `T` keypoint sets for
every `T ≥ 1`, and for `T ≥ 2` output frame 0 equals source frame 0's
keypoints and output frame `T - 1` equals the last source frame's
keypoints. The violations proved for C1-C3 are therefore confined to
single-frame sources. -/
lemma interpolate_poses_contract_of_two_frames (sequence : PoseSequence) (T : ℕ)
    (h2 : 2 ≤ sequence.frames.length) (h1T : 1 ≤ T) :
    ∃ out, interpolate_poses sequence (T : ℤ) = .ok out ∧ out.length = T ∧
      (2 ≤ T →
        out.get? 0 = (sequence.frames.get? 0).map PoseFrame.keypoints ∧
        out.get? (T - 1)
          = (sequence.frames.get? (sequence.frames.length - 1)).map PoseFrame.keypoints) := by
  set src := sequence.frames with hsrc
  have hlen0 : src.length ≠ 0 := by omega
  have hT0 : ¬ ((T : ℤ) ≤ 0) := by exact_mod_cast Nat.not_le.mpr (by omega)
  by_cases heq : (src.length : ℤ) = (T : ℤ)
  · have heqn : src.length = T := by exact_mod_cast heq
    refine ⟨src.map PoseFrame.keypoints, ?_, by simpa using heqn, ?_⟩
    · simp only [interpolate_poses, ← hsrc]
      rw [if_neg hlen0, if_neg hT0, if_pos heq]
    · intro h2T
      constructor
      · simp [List.get?_map]
      · rw [← heqn]
        simp [List.get?_map]
  · have hsteps : ∀ i ∈ List.range T, ∃ kp, interpStep src src.length T i = .ok kp :=
      fun i hi => interpStep_isOk src T i h2 (List.mem_range.mp hi)
    obtain ⟨out, hloop, hlen, hget⟩ :=
      interpLoop_ok_of_steps src src.length T (List.range T) hsteps
    have hrun : interpolate_poses sequence (T : ℤ) = .ok out := by
      simp only [interpolate_poses, ← hsrc]
      rw [if_neg hlen0, if_neg hT0, if_neg heq]
      simpa using hloop
    refine ⟨out, hrun, by simpa using hlen, ?_⟩
    intro h2T
    have hg0 : (List.range T).get? 0 = some 0 := List.get?_range (by omega)
    have hgl : (List.range T).get? (T - 1) = some (T - 1) := List.get?_range (by omega)
    obtain ⟨kp0, hkp0, hstep0⟩ := hget 0 0 hg0
    obtain ⟨kpl, hkpl, hstepl⟩ := hget (T - 1) (T - 1) hgl
    have hf0lt : 0 < src.length := by omega
    have hfllt : src.length - 1 < src.length := by omega
    have hf0 : src.get? 0 = some (src.get ⟨0, hf0lt⟩) := List.get?_eq_get hf0lt
    have hfl : src.get? (src.length - 1) = some (src.get ⟨src.length - 1, hfllt⟩) :=
      List.get?_eq_get hfllt
    constructor
    · rw [hkp0, hf0]
      have hz := interpStep_zero src T h2 _ hf0
      rw [hstep0] at hz
      injection hz with h
      simp only [Option.map_some']
      exact congrArg some h
    · rw [hkpl, hfl]
      have hl := interpStep_last src T h2 h2T _ hfl
      rw [hstepl] at hl
      injection hl with h
      simp only [Option.map_some']
      exact congrArg some h

/-! ## Assembly lemmas -/

/-- If every frame before index `i` is readable and frame `i` is not, the
paste loop of `assemble_sprite_sheet` fails with exactly the error the
image library raises for frame `i`'s path — a value depending on that path
alone. -/
lemma pasteFrames_error_at (fs : FS) (fw fh padding : ℕ) (direction : String)
    (frames : List String) :
    ∀ (i idx : ℕ) (path : String) (sheet : Image),
      frames.get? i = some path →
      (∀ img, fs path ≠ .image img) →
      (∀ j, j < i → ∀ q, frames.get? j = some q → ∃ img, fs q = .image img) →
      ∃ msg, pasteFrames fs fw fh padding direction frames idx sheet = .error msg ∧
        openRGBA fs path = .error msg := by
  induction frames with
  | nil => intro i idx path sheet hget _ _; simp at hget
  | cons p rest ih =>
    intro i idx path sheet hget hbad hgood
    cases i with
    | zero =>
      simp at hget
      subst hget
      cases hfp : fs p with
      | missing =>
        exact ⟨"[Errno 2] No such file or directory: " ++ quotedPath p,
          by simp [pasteFrames, openRGBA, hfp], by simp [openRGBA, hfp]⟩
      | corrupt =>
        exact ⟨"cannot identify image file " ++ quotedPath p,
          by simp [pasteFrames, openRGBA, hfp], by simp [openRGBA, hfp]⟩
      | image img => exact absurd hfp (hbad img)
    | succ i' =>
      obtain ⟨img0, himg⟩ := hgood 0 (Nat.succ_pos _) p rfl
      obtain ⟨msg, hmsg, hopen⟩ := ih i' (idx + 1) path
        (pasteMask sheet
          (if img0.width = fw ∧ img0.height = fh then img0 else resize img0 fw fh)
          (framePos direction fw fh padding idx).1 (framePos direction fw fh padding idx).2)
        (by simpa using hget) hbad
        (fun j hj q hq => hgood (j + 1) (Nat.succ_lt_succ hj) q (by simpa using hq))
      exact ⟨msg, by simpa [pasteFrames, openRGBA, himg] using hmsg, hopen⟩

/-- When every frame is readable the paste loop succeeds, the sheet keeps
its dimensions, and every pixel outside all pasted boxes keeps its
value. -/
lemma pasteFrames_ok (fs : FS) (fw fh padding : ℕ) (direction : String)
    (frames : List String) :
    ∀ (idx : ℕ) (sheet : Image),
      (∀ p ∈ frames, ∃ img, fs p = .image img) →
      ∃ out, pasteFrames fs fw fh padding direction frames idx sheet = .ok out ∧
        out.width = sheet.width ∧ out.height = sheet.height ∧
        ∀ x y,
          (∀ j, j < frames.length →
            ¬ ((framePos direction fw fh padding (idx + j)).1 ≤ x ∧
               x < (framePos direction fw fh padding (idx + j)).1 + fw ∧
               (framePos direction fw fh padding (idx + j)).2 ≤ y ∧
               y < (framePos direction fw fh padding (idx + j)).2 + fh)) →
          out.pix x y = sheet.pix x y := by
  induction frames with
  | nil => intro idx sheet _; exact ⟨sheet, rfl, rfl, rfl, fun x y _ => rfl⟩
  | cons p rest ih =>
    intro idx sheet hread
    obtain ⟨img0, himg⟩ := hread p (List.mem_cons_self p rest)
    have himgw : (if img0.width = fw ∧ img0.height = fh then img0
        else resize img0 fw fh).width = fw := by
      by_cases h : img0.width = fw ∧ img0.height = fh
      · simp [h, h.1]
      · simp [h, resize]
    have himgh : (if img0.width = fw ∧ img0.height = fh then img0
        else resize img0 fw fh).height = fh := by
      by_cases h : img0.width = fw ∧ img0.height = fh
      · simp [h, h.2]
      · simp [h, resize]
    obtain ⟨out, hrun, hw, hh, huntouched⟩ := ih (idx + 1)
      (pasteMask sheet
        (if img0.width = fw ∧ img0.height = fh then img0 else resize img0 fw fh)
        (framePos direction fw fh padding idx).1 (framePos direction fw fh padding idx).2)
      (fun q hq => hread q (List.mem_cons_of_mem _ hq))
    refine ⟨out, by simpa [pasteFrames, openRGBA, himg] using hrun, ?_, ?_, ?_⟩
    · rw [hw]; rfl
    · rw [hh]; rfl
    · intro x y hout
      have hrest : ∀ j, j < rest.length →
          ¬ ((framePos direction fw fh padding (idx + 1 + j)).1 ≤ x ∧
             x < (framePos direction fw fh padding (idx + 1 + j)).1 + fw ∧
             (framePos direction fw fh padding (idx + 1 + j)).2 ≤ y ∧
             y < (framePos direction fw fh padding (idx + 1 + j)).2 + fh) := by
        intro j hj
        have heq : idx + 1 + j = idx + (j + 1) := by omega
        rw [heq]
        exact hout (j + 1) (by simpa using Nat.succ_lt_succ hj)
      rw [huntouched x y hrest]
      have h0 := hout 0 (Nat.succ_pos _)
      rw [Nat.add_zero] at h0
      simp only [pasteMask]
      rw [if_neg]
      rw [himgw, himgh]
      exact h0

/-- When the frame list is non-empty and every frame readable,
`assemble_sprite_sheet` succeeds; the sheet has the canvas dimensions
computed at lines 53-58 of `pipeline/assembly.py`, and every pixel outside
all pasted boxes is the transparent background. -/
lemma assemble_ok_pix (fs : FS) (frames : List String) (fw fh padding : ℕ)
    (direction : String) (hne : frames ≠ [])
    (hread : ∀ p ∈ frames, ∃ img, fs p = .image img) :
    ∃ sheet, assemble_sprite_sheet fs frames (fw, fh) direction padding = .ok sheet ∧
      sheet.width = (if direction = "horizontal"
        then fw * frames.length + padding * (frames.length - 1) else fw) ∧
      sheet.height = (if direction = "horizontal"
        then fh else fh * frames.length + padding * (frames.length - 1)) ∧
      ∀ x y,
        (∀ j, j < frames.length →
          ¬ ((framePos direction fw fh padding j).1 ≤ x ∧
             x < (framePos direction fw fh padding j).1 + fw ∧
             (framePos direction fw fh padding j).2 ≤ y ∧
             y < (framePos direction fw fh padding j).2 + fh)) →
        sheet.pix x y = ⟨0, 0, 0, 0⟩ := by
  obtain ⟨out, hrun, hw, hh, hpix⟩ := pasteFrames_ok fs fw fh padding direction frames 0
    (⟨if direction = "horizontal" then fw * frames.length + padding * (frames.length - 1)
        else fw,
      if direction = "horizontal" then fh
        else fh * frames.length + padding * (frames.length - 1),
      fun _ _ => ⟨0, 0, 0, 0⟩⟩ : Image) hread
  refine ⟨out, ?_, hw, hh, ?_⟩
  · simp [assemble_sprite_sheet, hne]
    exact hrun
  · intro x y hout
    exact hpix x y (by simpa using hout)

/-- A coordinate inside the gap that follows frame `k` of a strip lies in
no frame's span: frames at or before `k` end at or before the gap's start,
frames after `k` start at or after the gap's end. -/
lemma gap_disjoint (w p x k j : ℕ) (h1 : k * (w + p) + w ≤ x)
    (h2 : x < (k + 1) * (w + p)) : ¬ (j * (w + p) ≤ x ∧ x < j * (w + p) + w) := by
  rintro ⟨hA, hB⟩
  rcases le_or_lt j k with hj | hj
  · have hm : j * (w + p) ≤ k * (w + p) := mul_le_mul_right' hj (w + p)
    omega
  · have hm : (k + 1) * (w + p) ≤ j * (w + p) := mul_le_mul_right' hj (w + p)
    omega

/-! ## C5: error attribution for an unreadable frame -/

/-- A test image; its pixel content is irrelevant to every claim. -/
def whiteImg : Image := ⟨4, 3, fun _ _ => ⟨255, 255, 255, 255⟩⟩

/-- A filesystem on which `a.png` decodes and every other path is a
zero-byte/unreadable file. -/
def exFS : FS := fun p => if p = "a.png" then .image whiteImg else .corrupt

/-- A filesystem on which every path decodes. -/
def goodFS : FS := fun _ => .image whiteImg

/-- C5 counterexample: with frames `["a.png", "b.png"]` and the frame at
index 1 unreadable, `assemble_sprite_sheet` raises the image library's own
error, whose message names the path but nowhere contains the digit `1` —
so it does not contain the offending frame's index, refuting the claim
that the message contains both the index and the path. -/
theorem C5_counterexample_message_lacks_index :
    assemble_sprite_sheet exFS ["a.png", "b.png"] (64, 64) "horizontal" 0
        = .error "cannot identify image file 'b.png'" ∧
    ¬ (("1").data <:+: ("cannot identify image file 'b.png'").data) :=
  ⟨rfl, by decide⟩

/-- C5 (amended): if every frame before index `i` is readable and frame
`i` is not, `assemble_sprite_sheet` raises an error whose message is
exactly the one the image library produces for frame `i`'s path — it
contains the (quoted) path, but is a function of the path alone and so
carries no frame index. -/
theorem C5_amended_unreadable_frame_error (fs : FS) (frames : List String)
    (fw fh padding : ℕ) (direction : String) (i : ℕ) (path : String)
    (hget : frames.get? i = some path)
    (hbad : ∀ img, fs path ≠ .image img)
    (hgood : ∀ j, j < i → ∀ q, frames.get? j = some q → ∃ img, fs q = .image img) :
    ∃ msg, assemble_sprite_sheet fs frames (fw, fh) direction padding = .error msg ∧
      openRGBA fs path = .error msg ∧ (quotedPath path).data <:+: msg.data := by
  have hne : frames ≠ [] := by
    intro h
    rw [h] at hget
    simp at hget
  obtain ⟨msg, hrun, hopen⟩ := pasteFrames_error_at fs fw fh padding direction frames i 0
    path _ hget hbad hgood
  refine ⟨msg, ?_, hopen, ?_⟩
  · simp [assemble_sprite_sheet, hne]
    exact hrun
  · cases hfp : fs path with
    | missing =>
      rw [openRGBA, hfp] at hopen
      simp at hopen
      exact ⟨("[Errno 2] No such file or directory: ").data, [],
        by simp [← hopen, String.data_append]⟩
    | corrupt =>
      rw [openRGBA, hfp] at hopen
      simp at hopen
      exact ⟨("cannot identify image file ").data, [],
        by simp [← hopen, String.data_append]⟩
    | image img => exact absurd hfp (hbad img)

/-- C5 witness: the amended statement evaluated on the concrete two-frame
input whose second frame is unreadable. -/
theorem C5_amended_witness :
    ((["a.png", "b.png"] : List String).get? 1 = some "b.png") ∧
    (∀ img, exFS "b.png" ≠ .image img) ∧
    (∃ msg, assemble_sprite_sheet exFS ["a.png", "b.png"] (64, 64) "horizontal" 0
        = .error msg ∧
      openRGBA exFS "b.png" = .error msg ∧ (quotedPath "b.png").data <:+: msg.data) := by
  refine ⟨rfl, fun img h => by simp [exFS] at h, ?_⟩
  exact C5_amended_unreadable_frame_error exFS ["a.png", "b.png"] 64 64 0 "horizontal" 1
    "b.png" rfl (fun img h => by simp [exFS] at h)
    (by
      intro j hj q hq
      interval_cases j
      simp at hq
      subst hq
      exact ⟨whiteImg, rfl⟩)

/-! ## C6 and C10: sheet dimensions, transparent gaps, direction fallback -/

/-- C6: with `n` readable frames, `assemble_sprite_sheet` succeeds; under
`direction="horizontal"` the sheet measures
`(fw*n + padding*(n-1), fh)`, under `direction="vertical"`
`(fw, fh*n + padding*(n-1))`; and in both layouts every pixel strictly
inside an inter-frame padding gap has alpha 0. -/
theorem C6_sheet_dimensions_and_transparent_gaps (fs : FS) (frames : List String)
    (fw fh padding : ℕ) (hne : frames ≠ [])
    (hread : ∀ p ∈ frames, ∃ img, fs p = .image img) :
    (∃ sheet, assemble_sprite_sheet fs frames (fw, fh) "horizontal" padding = .ok sheet ∧
      sheet.width = fw * frames.length + padding * (frames.length - 1) ∧
      sheet.height = fh ∧
      ∀ k x y, k + 1 < frames.length → k * (fw + padding) + fw ≤ x →
        x < (k + 1) * (fw + padding) → (sheet.pix x y).a = 0) ∧
    (∃ sheet, assemble_sprite_sheet fs frames (fw, fh) "vertical" padding = .ok sheet ∧
      sheet.width = fw ∧
      sheet.height = fh * frames.length + padding * (frames.length - 1) ∧
      ∀ k x y, k + 1 < frames.length → k * (fh + padding) + fh ≤ y →
        y < (k + 1) * (fh + padding) → (sheet.pix x y).a = 0) := by
  constructor
  · obtain ⟨sheet, hrun, hw, hh, hpix⟩ :=
      assemble_ok_pix fs frames fw fh padding "horizontal" hne hread
    refine ⟨sheet, hrun, by simpa using hw, by simpa using hh, ?_⟩
    intro k x y hk h1 h2
    rw [hpix x y ?_]
    · intro j _
      simp only [framePos, if_pos rfl]
      rintro ⟨hA, hB, _, _⟩
      exact gap_disjoint fw padding x k j h1 h2 ⟨hA, hB⟩
  · obtain ⟨sheet, hrun, hw, hh, hpix⟩ :=
      assemble_ok_pix fs frames fw fh padding "vertical" hne hread
    have hv : ("vertical" = "horizontal") = False := by simp
    refine ⟨sheet, hrun, by simpa [hv] using hw, by simpa [hv] using hh, ?_⟩
    intro k x y hk h1 h2
    rw [hpix x y ?_]
    · intro j _
      simp only [framePos, hv, if_false]
      rintro ⟨_, _, hC, hD⟩
      exact gap_disjoint fh padding y k j h1 h2 ⟨hC, hD⟩

/-- C6 witness: two readable frames, `frame_size = (4, 3)`, `padding = 2`,
horizontal layout. -/
theorem C6_sheet_dimensions_witness :
    ((["a.png", "b.png"] : List String) ≠ []) ∧
    (∃ sheet, assemble_sprite_sheet goodFS ["a.png", "b.png"] (4, 3) "horizontal" 2
        = .ok sheet ∧ sheet.width = 10 ∧ sheet.height = 3) := by
  refine ⟨by decide, ?_⟩
  obtain ⟨⟨sheet, hrun, hw, hh, _⟩, _⟩ :=
    C6_sheet_dimensions_and_transparent_gaps goodFS ["a.png", "b.png"] 4 3 2
      (by decide) (fun p _ => ⟨whiteImg, rfl⟩)
  exact ⟨sheet, hrun, by simpa using hw, hh⟩

/-- C10: `assemble_sprite_sheet` never validates `direction`: any value
other than exactly `"horizontal"` (including `"diagonal"` or `""`) takes
the `else` branch, silently producing the vertical layout instead of
raising. -/
theorem C10_unvalidated_direction_falls_back_to_vertical (fs : FS)
    (frames : List String) (fw fh padding : ℕ) (direction : String)
    (hdir : direction ≠ "horizontal") (hne : frames ≠ [])
    (hread : ∀ p ∈ frames, ∃ img, fs p = .image img) :
    ∃ sheet, assemble_sprite_sheet fs frames (fw, fh) direction padding = .ok sheet ∧
      sheet.width = fw ∧
      sheet.height = fh * frames.length + padding * (frames.length - 1) := by
  obtain ⟨sheet, hrun, hw, hh, _⟩ :=
    assemble_ok_pix fs frames fw fh padding direction hne hread
  exact ⟨sheet, hrun, by simpa [hdir] using hw, by simpa [hdir] using hh⟩

/-- C10 witness: the invalid direction `"diagonal"` on two readable frames
produces the vertical layout without error. -/
theorem C10_unvalidated_direction_witness :
    (("diagonal" : String) ≠ "horizontal") ∧
    ((["a.png", "b.png"] : List String) ≠ []) ∧
    (∃ sheet, assemble_sprite_sheet goodFS ["a.png", "b.png"] (4, 3) "diagonal" 2
        = .ok sheet ∧ sheet.width = 4 ∧ sheet.height = 8) := by
  refine ⟨by decide, by decide, ?_⟩
  obtain ⟨sheet, hrun, hw, hh⟩ :=
    C10_unvalidated_direction_falls_back_to_vertical goodFS ["a.png", "b.png"] 4 3 2
      "diagonal" (by decide) (by decide) (fun p _ => ⟨whiteImg, rfl⟩)
  exact ⟨sheet, hrun, hw, by simpa using hh⟩

/-! ## C4: mock backend determinism -/

/-- C4: `MockBackend.generate` is a function of the request's prompt,
width, height and seed alone (given one backend instance, i.e. one output
directory): two calls agreeing on those — even if every other request
field differs — produce identical results, gradient images included; and
for two calls with the same prompt and negative (unset) seeds, the seed
actually used is the same both times, namely the MD5-derived
`_prompt_seed(prompt)`. Identical `MockImage` records yield byte-identical
saved PNG files. -/
theorem C4_mock_backend_determinism (st1 st2 : MockState) (r1 r2 : GenerationRequest)
    (hdir : st1.outputDir = st2.outputDir)
    (hp : r1.prompt = r2.prompt) (hw : r1.width = r2.width) (hh : r1.height = r2.height) :
    (r1.seed = r2.seed → 0 ≤ r1.seed → mock_generate st1 r1 = mock_generate st2 r2) ∧
    (r1.seed < 0 → r2.seed < 0 →
      mockUsedSeed r1 = mockUsedSeed r2 ∧ mockUsedSeed r1 = promptSeed r1.prompt) := by
  constructor
  · intro hs _
    simp [mock_generate, mockUsedSeed, create_gradient_image, hdir, hp, hw, hh, hs]
  · intro hn1 hn2
    have e1 : mockUsedSeed r1 = promptSeed r1.prompt := by
      simp only [mockUsedSeed]
      rw [if_neg (not_le.mpr hn1)]
    have e2 : mockUsedSeed r2 = promptSeed r2.prompt := by
      simp only [mockUsedSeed]
      rw [if_neg (not_le.mpr hn2)]
    exact ⟨by rw [e1, e2, hp], e1⟩

/-- A mock backend state for the C4 witness. -/
def w4st : MockState := ⟨"mock_output", true⟩

/-- First C4 witness request: unset seed. -/
def w4r1 : GenerationRequest := { prompt := "a cozy anime girl", seed := -1 }

/-- Second C4 witness request: also an unset (negative) seed, and a
different step count, which the mock ignores. -/
def w4r2 : GenerationRequest := { prompt := "a cozy anime girl", seed := -5, steps := 50 }

/-- C4 witness: the determinism statement applied to two concrete
unset-seed requests with equal prompts. -/
theorem C4_mock_backend_determinism_witness :
    (w4st.outputDir = w4st.outputDir ∧ w4r1.prompt = w4r2.prompt ∧
      w4r1.width = w4r2.width ∧ w4r1.height = w4r2.height) ∧
    ((w4r1.seed = w4r2.seed → 0 ≤ w4r1.seed →
        mock_generate w4st w4r1 = mock_generate w4st w4r2) ∧
     (w4r1.seed < 0 → w4r2.seed < 0 →
        mockUsedSeed w4r1 = mockUsedSeed w4r2 ∧
        mockUsedSeed w4r1 = promptSeed w4r1.prompt)) :=
  ⟨⟨rfl, rfl, rfl, rfl⟩,
    C4_mock_backend_determinism w4st w4st w4r1 w4r2 rfl rfl rfl rfl⟩

/-! ## C8: generate before connect -/

/-- C8 counterexample: on a freshly constructed mock backend whose
`connect` was never called (its output directory does not even exist yet),
`generate` succeeds rather than failing fast with a programmer-error
exception — refuting the claim for the mock variant (and the fal variant
behaves likewise). -/
theorem C8_counterexample_mock_generate_succeeds_unconnected :
    ((mock_generate ⟨"mock_output", false⟩ { prompt := "x" }).1).isOk = true := rfl

/-- C8 (amended): only the local-service (ComfyUI) variant fails fast —
its `generate` calls `_ensure_client`, which raises
`RuntimeError("Not connected. Call connect() first.")` whenever `connect`
has not stored a client. The mock and fal variants perform no connection
check: their `generate` succeeds in every state, including the
never-connected one (`_api_key = ""` for fal). -/
theorem C8_amended_only_local_service_fails_fast :
    (∀ (net : ComfyNet) (checkpoint : String) (request : GenerationRequest),
      comfy_generate ⟨none⟩ net checkpoint request
        = .error "Not connected. Call connect() first.") ∧
    (∀ (st : MockState) (request : GenerationRequest),
      ((mock_generate st request).1).isOk = true) ∧
    (∀ (settings : FalSettings) (net : FalNet) (request : GenerationRequest),
      (fal_generate ⟨""⟩ settings net request).isOk = true) :=
  ⟨fun _ _ _ => rfl, fun _ _ => rfl, fun _ _ _ => rfl⟩

/-! ## C9: seed policy of the local-service and mock variants -/

/-- The `seed` input of the (unique) `KSampler` node of a workflow. -/
def ksamplerSeed (w : Workflow) : Option JVal :=
  match w.find? (fun e => e.2.class_type = "KSampler") with
  | some e => e.2.inputs.lookup "seed"
  | none => none

/-- C9: for every request, the job graph the ComfyUI variant submits
carries `KSampler.seed = request.seed` when the seed is non-negative and
the literal `0` otherwise, and the mock variant uses `request.seed` when
non-negative and the prompt-derived pseudo-seed otherwise. -/
theorem C9_negative_seed_policy (checkpoint : String) (request : GenerationRequest) :
    ksamplerSeed (comfy_build_workflow checkpoint request)
        = some (.i (if request.seed ≥ 0 then request.seed else 0)) ∧
    mockUsedSeed request
        = (if request.seed ≥ 0 then request.seed else promptSeed request.prompt) := by
  refine ⟨?_, rfl⟩
  have t6 : toString (6 : ℕ) = "6" := rfl
  have t7 : toString (7 : ℕ) = "7" := rfl
  have t8 : toString (8 : ℕ) = "8" := rfl
  have t9 : toString (9 : ℕ) = "9" := rfl
  have t10 : toString (10 : ℕ) = "10" := rfl
  have t11 : toString (11 : ℕ) = "11" := rfl
  have t5 : toString (5 : ℕ) = "5" := rfl
  rcases hinit : request.init_image with _ | initPath <;>
    rcases hcn : request.controlnet_image with _ | cnImg <;>
    rcases hcm : request.controlnet_model with _ | cnModel
  all_goals
    first
    | (by_cases he : cnModel = "" <;>
        simp [comfy_build_workflow, comfy_add_controlnet, setInput, ksamplerSeed,
          hinit, hcn, hcm, he, t5, t6, t7, t8, t9, t10, t11, List.find?, List.lookup])
    | (simp [comfy_build_workflow, comfy_add_controlnet, setInput, ksamplerSeed,
        hinit, hcn, hcm, t5, t6, t7, t8, t9, t10, t11, List.find?, List.lookup])

/-! ## C7: the orchestrator recovers missing sequences and empty frames -/

/-- A key that heads no entry of an association list looks up to `none`. -/
lemma lookup_eq_none_of_not_mem {α : Type} (res : List (String × α)) (k : String)
    (h : ∀ e ∈ res, e.1 ≠ k) : res.lookup k = none := by
  induction res with
  | nil => rfl
  | cons e rest ih =>
    have hb : (k == e.1) = false :=
      beq_eq_false_iff_ne.mpr (h e (List.mem_cons_self e rest)).symm
    simp only [List.lookup, hb]
    exact ih fun e' he' => h e' (List.mem_cons_of_mem _ he')

/-- A key of some entry of an association list looks up to some value. -/
lemma lookup_isSome_of_mem_keys {α : Type} (entries : List (String × α)) (p : String)
    (hp : p ∈ entries.map Prod.fst) : ∃ v, entries.lookup p = some v := by
  induction entries with
  | nil => simp at hp
  | cons e rest ih =>
    by_cases hk : e.1 = p
    · exact ⟨e.2, by simp [List.lookup, hk]⟩
    · have hp' : p ∈ rest.map Prod.fst := by
        rcases List.mem_map.mp hp with ⟨x, hx, hxp⟩
        rcases List.mem_cons.mp hx with rfl | hx'
        · exact absurd hxp hk
        · exact hxp ▸ List.mem_map_of_mem Prod.fst hx'
      obtain ⟨v, hv⟩ := ih hp'
      have hb : (p == e.1) = false := beq_eq_false_iff_ne.mpr fun h => hk h.symm
      exact ⟨v, by simp only [List.lookup, hb]; exact hv⟩

/-- Every collected frame file is decodable on the scratch filesystem. -/
lemma tmpFS_readable (entries : List (String × Image)) :
    ∀ p ∈ entries.map Prod.fst, ∃ img, tmpFS entries p = .image img := by
  intro p hp
  obtain ⟨v, hv⟩ := lookup_isSome_of_mem_keys entries p hp
  exact ⟨v, by simp [tmpFS, hv]⟩

/-- The sprite-sheet assembly the orchestrator performs over the frames it
just wrote always succeeds. -/
lemma orch_assemble_ok (cfgW cfgH : ℕ) (entries : List (String × Image))
    (hne : entries ≠ []) :
    ∃ sheet, assemble_sprite_sheet (tmpFS entries) (entries.map Prod.fst) (cfgW, cfgH)
      "horizontal" 0 = .ok sheet := by
  obtain ⟨sheet, h, _, _, _⟩ := assemble_ok_pix (tmpFS entries) (entries.map Prod.fst)
    cfgW cfgH 0 "horizontal" (fun hmap => hne (by simpa using hmap))
    (tmpFS_readable entries)
  exact ⟨sheet, h⟩

/-- C7: given animation definitions with distinct ids whose found pose
sequences interpolate without error, the orchestrator never raises: a
missing pose sequence yields its logged warning and no mapping entry; an
animation whose every frame returned zero images yields no mapping entry;
an animation with at least one successful frame yields its sheet-path
entry; and every mapping key is a requested animation id — so the
remaining animations are always processed. -/
theorem C7_orchestrator_recovers_missing_and_empty (poseLib : PoseLib) (gen : GenOracle)
    (cfgW cfgH : ℕ) (outputDir charName : String) (anims : List AnimationDef)
    (hNodup : (anims.map AnimationDef.id).Nodup)
    (hInterp : ∀ a ∈ anims, ∀ seq, poseLib a.pose_sequence = some seq →
      (interpolate_poses seq a.frame_count).isOk = true) :
    ∃ res warns,
      generate_character_animations poseLib gen cfgW cfgH outputDir charName anims
        = .ok (res, warns) ∧
      (∀ e ∈ res, e.1 ∈ anims.map AnimationDef.id) ∧
      (∀ a ∈ anims, poseLib a.pose_sequence = none →
        res.lookup a.id = none ∧ seqWarning a ∈ warns) ∧
      (∀ a ∈ anims, ∀ seq, poseLib a.pose_sequence = some seq →
        ∀ kps, interpolate_poses seq a.frame_count = .ok kps →
          ((collectFrames gen a.id kps.length).isEmpty = true →
            res.lookup a.id = none) ∧
          ((collectFrames gen a.id kps.length).isEmpty = false →
            res.lookup a.id = some (sheetPath outputDir charName a.id))) := by
  revert hNodup hInterp
  induction anims with
  | nil =>
    intro _ _
    exact ⟨[], [], rfl, by simp, by simp, by simp⟩
  | cons anim rest ih =>
    intro hNodup hInterp
    rw [List.map_cons, List.nodup_cons] at hNodup
    obtain ⟨hidnotin, hNodupRest⟩ := hNodup
    obtain ⟨res, warns, hrun, hkeys, hmiss, hproc⟩ :=
      ih hNodupRest (fun a ha => hInterp a (List.mem_cons_of_mem _ ha))
    have hne_id : ∀ a ∈ rest, a.id ≠ anim.id := by
      intro a ha h
      exact hidnotin (h ▸ List.mem_map_of_mem AnimationDef.id ha)
    have hreskey : ∀ e ∈ res, e.1 ≠ anim.id := by
      intro e he h
      exact hidnotin (h ▸ hkeys e he)
    cases hpl : poseLib anim.pose_sequence with
    | none =>
      refine ⟨res, seqWarning anim :: warns, ?_, ?_, ?_, ?_⟩
      · simp only [generate_character_animations, hpl, hrun]
      · intro e he
        exact List.mem_cons_of_mem _ (hkeys e he)
      · intro a ha hnone
        rcases List.mem_cons.mp ha with rfl | ha'
        · exact ⟨lookup_eq_none_of_not_mem res a.id hreskey,
            List.mem_cons_self _ _⟩
        · obtain ⟨h1, h2⟩ := hmiss a ha' hnone
          exact ⟨h1, List.mem_cons_of_mem _ h2⟩
      · intro a ha seq hseq kps hkps
        rcases List.mem_cons.mp ha with rfl | ha'
        · rw [hpl] at hseq; simp at hseq
        · exact hproc a ha' seq hseq kps hkps
    | some seq =>
      have hok := hInterp anim (List.mem_cons_self _ _) seq hpl
      cases hint : interpolate_poses seq anim.frame_count with
      | error e => rw [hint] at hok; simp [Except.isOk, Except.toBool] at hok
      | ok kps =>
        cases hemp : (collectFrames gen anim.id kps.length).isEmpty with
        | true =>
          refine ⟨res, frameWarnings gen anim.id kps.length ++ warns, ?_, ?_, ?_, ?_⟩
          · simp [generate_character_animations, hpl, hint, hemp, hrun]
          · intro e he
            exact List.mem_cons_of_mem _ (hkeys e he)
          · intro a ha hnone
            rcases List.mem_cons.mp ha with rfl | ha'
            · rw [hpl] at hnone; simp at hnone
            · obtain ⟨h1, h2⟩ := hmiss a ha' hnone
              exact ⟨h1, List.mem_append_right _ h2⟩
          · intro a ha seq' hseq' kps' hkps'
            rcases List.mem_cons.mp ha with rfl | ha'
            · rw [hpl] at hseq'
              injection hseq' with hs
              subst hs
              rw [hint] at hkps'
              injection hkps' with hk
              subst hk
              refine ⟨fun _ => lookup_eq_none_of_not_mem res a.id hreskey, fun hf => ?_⟩
              rw [hemp] at hf
              cases hf
            · exact hproc a ha' seq' hseq' kps' hkps'
        | false =>
          have hne : collectFrames gen anim.id kps.length ≠ [] := by
            intro hn
            rw [hn] at hemp
            simp at hemp
          obtain ⟨sheet, hasm⟩ :=
            orch_assemble_ok cfgW cfgH (collectFrames gen anim.id kps.length) hne
          refine ⟨(anim.id, sheetPath outputDir charName anim.id) :: res,
            frameWarnings gen anim.id kps.length ++ warns, ?_, ?_, ?_, ?_⟩
          · simp [generate_character_animations, hpl, hint, hemp, hasm, hrun]
          · intro e he
            rcases List.mem_cons.mp he with rfl | he'
            · exact List.mem_cons_self _ _
            · exact List.mem_cons_of_mem _ (hkeys e he')
          · intro a ha hnone
            rcases List.mem_cons.mp ha with rfl | ha'
            · rw [hpl] at hnone; simp at hnone
            · obtain ⟨h1, h2⟩ := hmiss a ha' hnone
              have hb : (a.id == anim.id) = false :=
                beq_eq_false_iff_ne.mpr (hne_id a ha')
              refine ⟨?_, List.mem_append_right _ h2⟩
              simp only [List.lookup, hb]
              exact h1
          · intro a ha seq' hseq' kps' hkps'
            rcases List.mem_cons.mp ha with rfl | ha'
            · rw [hpl] at hseq'
              injection hseq' with hs
              subst hs
              rw [hint] at hkps'
              injection hkps' with hk
              subst hk
              refine ⟨fun hf => ?_, fun _ => ?_⟩
              · rw [hemp] at hf
                cases hf
              · simp [List.lookup]
            · have hb : (a.id == anim.id) = false :=
                beq_eq_false_iff_ne.mpr (hne_id a ha')
              obtain ⟨h1, h2⟩ := hproc a ha' seq' hseq' kps' hkps'
              constructor
              · intro hf
                simp only [List.lookup, hb]
                exact h1 hf
              · intro hf
                simp only [List.lookup, hb]
                exact h2 hf

/-- A two-frame `idle` sequence for the C7 witness. -/
def w7seq : PoseSequence :=
  ⟨"idle", [⟨mkKp ⟨1 / 2, 1 / 4, 1⟩, 83⟩, ⟨mkKp ⟨1 / 2, 3 / 4, 1⟩, 83⟩], true⟩

/-- A pose catalog holding only `idle`. -/
def w7poseLib : PoseLib := fun name => if name = "idle" then some w7seq else none

/-- A backend oracle that returns one image per frame of the `idle`
animation and zero images for every other animation. -/
def w7gen : GenOracle := fun animId _ => if animId = "idle" then [whiteImg] else []

/-- C7 witness animation whose sequence exists and whose frames succeed. -/
def w7a1 : AnimationDef :=
  { id := "idle", name := "Idle", zone_id := "desk", pose_sequence := "idle",
    frame_count := 2 }

/-- C7 witness animation whose pose sequence is missing from the catalog. -/
def w7a2 : AnimationDef :=
  { id := "typing", name := "Typing", zone_id := "desk", pose_sequence := "ghost" }

/-- C7 witness: on a concrete run with one missing-sequence animation and
one fully successful animation, the orchestrator returns without raising,
omits the missing animation (logging its warning) and maps the successful
one to its sheet path. -/
theorem C7_orchestrator_witness :
    (([w7a1, w7a2].map AnimationDef.id).Nodup) ∧
    (∃ res warns,
      generate_character_animations w7poseLib w7gen 64 64 "out" "lofi" [w7a1, w7a2]
        = .ok (res, warns) ∧
      res.lookup "typing" = none ∧ seqWarning w7a2 ∈ warns ∧
      res.lookup "idle" = some (sheetPath "out" "lofi" "idle")) := by
  have hInterp : ∀ a ∈ [w7a1, w7a2], ∀ seq, w7poseLib a.pose_sequence = some seq →
      (interpolate_poses seq a.frame_count).isOk = true := by
    intro a ha seq hseq
    fin_cases ha
    · rw [show w7poseLib w7a1.pose_sequence = some w7seq from rfl] at hseq
      injection hseq with h
      subst h
      decide
    · rw [show w7poseLib w7a2.pose_sequence = (none : Option PoseSequence) from rfl] at hseq
      cases hseq
  refine ⟨by decide, ?_⟩
  obtain ⟨res, warns, hrun, hkeys, hmiss, hproc⟩ :=
    C7_orchestrator_recovers_missing_and_empty w7poseLib w7gen 64 64 "out" "lofi"
      [w7a1, w7a2] (by decide) hInterp
  obtain ⟨hm1, hm2⟩ := hmiss w7a2 (by simp) rfl
  have hp := hproc w7a1 (by simp) w7seq rfl [mkKp ⟨1 / 2, 1 / 4, 1⟩, mkKp ⟨1 / 2, 3 / 4, 1⟩] rfl
  exact ⟨res, warns, hrun, hm1, hm2, hp.2 rfl⟩

end AnimeForge
